import Mathlib

/-!
Verification of the index layer of the Solana account-state store
(`bucket_map/src/index_entry.rs` and `runtime/src/accounts_index_storage.rs`),
shallowly embedded in Lean 4.  Machine integers (u8/u56/u64) are modelled as
`Nat` with explicit `% 2 ^ w` where wrap-around matters; Rust panics
(assertion failures, `expect`, out-of-bounds indexing) are modelled by
`Option`-valued functions returning `none`.
-/

namespace SolanaIndex

/-! ## Bit-length helpers (embedding of `u64::leading_zeros`) -/

/-- Number of binary digits of `n`, computed with explicit fuel so that the
definition is structurally recursive (fuel 64 suffices for any u64 value). -/
def bitLenAux : Nat → Nat → Nat
  | 0, _ => 0
  | fuel + 1, n => if n = 0 then 0 else bitLenAux fuel (n / 2) + 1

/-- `u64::leading_zeros` of a value `x < 2 ^ 64`. -/
def leading_zeros64 (x : Nat) : Nat := 64 - bitLenAux 64 x

/-- Embedding of `IndexEntry::data_bucket_from_num_slots`
(`bucket_map/src/index_entry.rs` lines 91-98):
`if num_slots == 0 { 0 } else { (Slot::BITS - (num_slots - 1).leading_zeros()) as u64 }`
with `Slot::BITS = 64`. -/
def data_bucket_from_num_slots (num_slots : Nat) : Nat :=
  if num_slots = 0 then 0 else 64 - leading_zeros64 (num_slots - 1)

theorem bitLenAux_le_iff (fuel : Nat) :
    ∀ n k : Nat, n < 2 ^ fuel → (bitLenAux fuel n ≤ k ↔ n < 2 ^ k) := by
  induction fuel with
  | zero =>
    intro n k hn
    simp only [pow_zero, Nat.lt_one_iff] at hn
    subst hn
    simp only [bitLenAux, Nat.zero_le, true_iff]
    exact Nat.pos_pow_of_pos k (by norm_num)
  | succ fuel ih =>
    intro n k hn
    by_cases h0 : n = 0
    · subst h0
      rw [show bitLenAux (fuel + 1) 0 = 0 from rfl]
      simp only [Nat.zero_le, true_iff]
      exact Nat.pos_pow_of_pos k (by norm_num)
    · have hdiv : n / 2 < 2 ^ fuel := by
        rw [Nat.div_lt_iff_lt_mul (by norm_num : 0 < 2)]
        rw [pow_succ] at hn; exact hn
      simp only [bitLenAux, h0, if_false]
      cases k with
      | zero =>
        simp only [pow_zero, Nat.lt_one_iff]
        omega
      | succ j =>
        rw [Nat.succ_le_succ_iff, ih (n / 2) j hdiv,
          Nat.div_lt_iff_lt_mul (by norm_num : 0 < 2), ← pow_succ]

theorem data_bucket_eq_bitLen (n : Nat) (h0 : n ≠ 0) (hn : n < 2 ^ 64) :
    data_bucket_from_num_slots n = bitLenAux 64 (n - 1) := by
  have hlt : n - 1 < 2 ^ 64 := by omega
  have hle : bitLenAux 64 (n - 1) ≤ 64 := (bitLenAux_le_iff 64 (n - 1) 64 hlt).2 hlt
  simp only [data_bucket_from_num_slots, h0, if_false, leading_zeros64]
  omega

theorem data_bucket_le_iff (n k : Nat) (h0 : n ≠ 0) (hn : n < 2 ^ 64) :
    data_bucket_from_num_slots n ≤ k ↔ n ≤ 2 ^ k := by
  have hlt : n - 1 < 2 ^ 64 := by omega
  rw [data_bucket_eq_bitLen n h0 hn, bitLenAux_le_iff 64 (n - 1) k hlt]
  constructor
  · intro h
    calc n = n - 1 + 1 := by omega
      _ ≤ 2 ^ k := Nat.succ_le_of_lt h
  · intro h
    exact Nat.lt_of_lt_of_le (Nat.pred_lt h0) h

/-- C1: `data_bucket_from_num_slots` is the ceiling of log2: it returns `0` on
`0` and otherwise the smallest `k` with `2 ^ k ≥ n` (so it agrees with
`Nat.clog 2`, and a power of two `2 ^ j` maps to `j`, not `j + 1`); at the
spec's u32 boundary inputs it returns 32, 32 and 33. -/
theorem data_bucket_from_num_slots_ceil_log2 (n : Nat) (hn : n < 2 ^ 64) :
    (n = 0 → data_bucket_from_num_slots n = 0) ∧
    (0 < n → n ≤ 2 ^ data_bucket_from_num_slots n ∧
      ∀ k, n ≤ 2 ^ k → data_bucket_from_num_slots n ≤ k) ∧
    data_bucket_from_num_slots n = Nat.clog 2 n ∧
    (∀ j, 2 ^ j = n → data_bucket_from_num_slots n = j) ∧
    data_bucket_from_num_slots (2 ^ 32 - 1) = 32 ∧
    data_bucket_from_num_slots (2 ^ 32) = 32 ∧
    data_bucket_from_num_slots (2 ^ 32 + 1) = 33 := by
  by_cases h0 : n = 0
  · subst h0
    refine ⟨fun _ => rfl, fun h => absurd h (by norm_num), ?_, ?_, by decide, by decide, by decide⟩
    · simp [data_bucket_from_num_slots]
    · intro j hj
      exact absurd hj (Nat.two_pow_pos j).ne'
  · have hpos : 0 < n := Nat.pos_of_ne_zero h0
    have hself : n ≤ 2 ^ data_bucket_from_num_slots n :=
      (data_bucket_le_iff n (data_bucket_from_num_slots n) h0 hn).1 le_rfl
    have hmin : ∀ k, n ≤ 2 ^ k → data_bucket_from_num_slots n ≤ k :=
      fun k hk => (data_bucket_le_iff n k h0 hn).2 hk
    have hclog : data_bucket_from_num_slots n = Nat.clog 2 n := by
      refine le_antisymm (hmin _ (Nat.le_pow_clog one_lt_two n)) ?_
      exact (Nat.le_pow_iff_clog_le one_lt_two).1 hself
    refine ⟨fun h => absurd h h0, fun _ => ⟨hself, hmin⟩, hclog, ?_,
      by decide, by decide, by decide⟩
    intro j hj
    rw [hclog, ← hj, Nat.clog_pow 2 j one_lt_two]

theorem data_bucket_from_num_slots_ceil_log2_witness :
    (5 : Nat) < 2 ^ 64 ∧ data_bucket_from_num_slots 5 = Nat.clog 2 5 :=
  ⟨by norm_num, (data_bucket_from_num_slots_ceil_log2 5 (by norm_num)).2.2.1⟩

/-! ## The packed (capacity-when-created-pow2, offset) word

`PackedStorage` in `index_entry.rs` is a `modular_bitfield` over one 64-bit
word: `capacity_when_created_pow2: B8` occupies bits [0,8) and `offset: B56`
occupies bits [8,64) (spec section 6 states the same layout).  The word is
modelled as a `Nat` kept below `2 ^ 64`. -/

structure PackedStorage where
  word : Nat
deriving DecidableEq, Repr

/-- `PackedStorage::default()`: the all-zero word. -/
def PackedStorage.default : PackedStorage := ⟨0⟩

/-- Getter for the low 8 bits (`capacity_when_created_pow2`). -/
def PackedStorage.capacity_when_created_pow2 (p : PackedStorage) : Nat :=
  p.word % 2 ^ 8

/-- Getter for bits [8,64) (`offset`). -/
def PackedStorage.offset (p : PackedStorage) : Nat :=
  p.word / 2 ^ 8 % 2 ^ 56

/-- Setter for the low 8 bits; the argument is a `u8`, embedded by `% 2 ^ 8`. -/
def PackedStorage.set_capacity_when_created_pow2 (p : PackedStorage) (v : Nat) :
    PackedStorage :=
  ⟨p.word / 2 ^ 8 * 2 ^ 8 + v % 2 ^ 8⟩

/-- `set_offset_checked`: stores `v` into bits [8,64) when it fits in 56 bits,
otherwise reports an error (which `set_storage_offset` turns into a panic). -/
def PackedStorage.set_offset_checked (p : PackedStorage) (v : Nat) :
    Option PackedStorage :=
  if v < 2 ^ 56 then some ⟨v * 2 ^ 8 + p.word % 2 ^ 8⟩ else none

/-! ## Index entries and bucket storage -/

/-- `Pubkey`: 32-byte equality-comparable identifier; its internal structure is
irrelevant to every claim, so it is modelled as a bare `Nat`. -/
abbrev Pubkey := Nat

/-- Embedding of `IndexEntry` (`index_entry.rs` lines 64-74): the fixed
per-key record stored in an Index Bucket.  `RefCount` and `Slot` are u64. -/
structure IndexEntry where
  key : Pubkey
  ref_count : Nat
  storage_cap_and_offset : PackedStorage
  num_slots : Nat
deriving DecidableEq, Repr

/-- Embedding of `BucketWithBitVec` (`index_entry.rs` lines 28-53): the
occupancy tracker, a side bit vector with one bit per bucket slot.  `bv`'s
`BitVec` is modelled as a `List Bool`. -/
structure BucketWithBitVec where
  occupied : List Bool
deriving DecidableEq, Repr

/-- `BucketOccupied::new(num_elements)`: all slots start free. -/
def BucketWithBitVec.new_fill (num_elements : Nat) : BucketWithBitVec :=
  ⟨List.replicate num_elements false⟩

/-- `is_free(ix)`: reads the bit; a pure function of the tracker state. -/
def BucketWithBitVec.is_free (b : BucketWithBitVec) (ix : Nat) : Bool :=
  !(b.occupied.getD ix false)

/-- `occupy(ix)`: `assert!(self.is_free(ix))` then set the bit; the failed
assertion (double-occupy) is modelled as `none`. -/
def BucketWithBitVec.occupy (b : BucketWithBitVec) (ix : Nat) :
    Option BucketWithBitVec :=
  if b.is_free ix then some ⟨b.occupied.set ix true⟩ else none

/-- `free(ix)`: `assert!(!self.is_free(ix))` then clear the bit; the failed
assertion (double-free) is modelled as `none`. -/
def BucketWithBitVec.free (b : BucketWithBitVec) (ix : Nat) :
    Option BucketWithBitVec :=
  if !(b.is_free ix) then some ⟨b.occupied.set ix false⟩ else none

/-- `offset_to_first_data`: no per-element header bytes. -/
def BucketWithBitVec.offset_to_first_data : Nat := 0

/-- Modelled from the spec: `BucketStorage` (`bucket_storage.rs` is not among
the provided sources; spec section 4.3 gives its contract): a fixed-element-size
array with a power-of-two capacity exponent and an occupancy tracker, with
bounds-checked typed element access. -/
structure BucketStorage (α : Type) where
  capacity_pow2 : Nat
  elements : List α
  occupancy : BucketWithBitVec
deriving DecidableEq, Repr

/-- Modelled from the spec: `get::<T>(ix)` — bounds-checked element read;
an out-of-range index is a panic, modelled as `none`. -/
def BucketStorage.get {α : Type} (s : BucketStorage α) (ix : Nat) : Option α :=
  s.elements[ix]?

/-- Modelled from the spec: writing through `get_mut::<T>(ix)`. -/
def BucketStorage.setElem {α : Type} (s : BucketStorage α) (ix : Nat) (e : α) :
    BucketStorage α :=
  { s with elements := s.elements.set ix e }

/-- Modelled from the spec: `is_free(loc)` — delegates to the occupancy
tracker. -/
def BucketStorage.is_free {α : Type} (s : BucketStorage α) (loc : Nat) : Bool :=
  s.occupancy.is_free loc

/-- Modelled from the spec: `get_cell_slice::<T>(loc, len)` — borrow the
contiguous run of `len` elements starting at `loc`; out of range is a panic,
modelled as `none`. -/
def BucketStorage.get_cell_slice {α : Type} (s : BucketStorage α)
    (loc len : Nat) : Option (List α) :=
  if loc + len ≤ s.elements.length then some ((s.elements.drop loc).take len)
  else none

/-! ## The entry handle (`IndexEntryPlaceInBucket`, `index_entry.rs` 58-215)

Every operation goes through `index_bucket.get::<IndexEntry>(self.ix)` or its
`get_mut` counterpart, so every embedded operation is `Option`-valued: `none`
is the out-of-bounds panic (or, for `set_storage_offset`, the `expect`
panic). -/

structure IndexEntryPlaceInBucket where
  ix : Nat
deriving DecidableEq, Repr

namespace IndexEntryPlaceInBucket

/-- `init(index_bucket, pubkey)`: writes the key and zeroes `ref_count`,
`storage_cap_and_offset` and `num_slots`. -/
def init (h : IndexEntryPlaceInBucket) (b : BucketStorage IndexEntry)
    (pubkey : Pubkey) : Option (BucketStorage IndexEntry) :=
  match b.get h.ix with
  | none => none
  | some _ => some (b.setElem h.ix
      { key := pubkey, ref_count := 0,
        storage_cap_and_offset := PackedStorage.default, num_slots := 0 })

/-- `set_storage_capacity_when_created_pow2(index_bucket, pow2)`. -/
def set_storage_capacity_when_created_pow2 (h : IndexEntryPlaceInBucket)
    (b : BucketStorage IndexEntry) (v : Nat) :
    Option (BucketStorage IndexEntry) :=
  match b.get h.ix with
  | none => none
  | some e => some (b.setElem h.ix
      { e with storage_cap_and_offset :=
          e.storage_cap_and_offset.set_capacity_when_created_pow2 v })

/-- `set_storage_offset(index_bucket, storage_offset)`: delegates to
`set_offset_checked` and panics (`none`) when the offset does not fit in
56 bits ("New storage offset must fit into 7 bytes!"). -/
def set_storage_offset (h : IndexEntryPlaceInBucket)
    (b : BucketStorage IndexEntry) (v : Nat) :
    Option (BucketStorage IndexEntry) :=
  match b.get h.ix with
  | none => none
  | some e =>
    match e.storage_cap_and_offset.set_offset_checked v with
    | none => none
    | some p => some (b.setElem h.ix { e with storage_cap_and_offset := p })

/-- `storage_capacity_when_created_pow2(index_bucket)`. -/
def storage_capacity_when_created_pow2 (h : IndexEntryPlaceInBucket)
    (b : BucketStorage IndexEntry) : Option Nat :=
  (b.get h.ix).map (fun e => e.storage_cap_and_offset.capacity_when_created_pow2)

/-- `storage_offset(index_bucket)`. -/
def storage_offset (h : IndexEntryPlaceInBucket)
    (b : BucketStorage IndexEntry) : Option Nat :=
  (b.get h.ix).map (fun e => e.storage_cap_and_offset.offset)

/-- `ref_count(index_bucket)`. -/
def ref_count (h : IndexEntryPlaceInBucket) (b : BucketStorage IndexEntry) :
    Option Nat :=
  (b.get h.ix).map (fun e => e.ref_count)

/-- `num_slots(index_bucket)`. -/
def num_slots (h : IndexEntryPlaceInBucket) (b : BucketStorage IndexEntry) :
    Option Nat :=
  (b.get h.ix).map (fun e => e.num_slots)

/-- `data_bucket_ix(index_bucket)`: the size class of the entry's slot list. -/
def data_bucket_ix (h : IndexEntryPlaceInBucket) (b : BucketStorage IndexEntry) :
    Option Nat :=
  (h.num_slots b).map data_bucket_from_num_slots

/-- `data_loc(index_bucket, storage)`: the stored offset left-shifted by the
difference between the Data Bucket's current capacity exponent and the
exponent recorded at allocation time, as a u64 (`% 2 ^ 64`).  The Nat
subtraction matches the allocator invariant of spec section 4.2 that capacity
only ever grows. -/
def data_loc {α : Type} (h : IndexEntryPlaceInBucket)
    (b : BucketStorage IndexEntry) (storage : BucketStorage α) : Option Nat :=
  (b.get h.ix).map (fun e =>
    (e.storage_cap_and_offset.offset <<<
        (storage.capacity_pow2 -
          e.storage_cap_and_offset.capacity_when_created_pow2)) % 2 ^ 64)

/-- `read_value(index_bucket, data_buckets)` (`index_entry.rs` 171-188): the
outer `Option` is the panic monad (failed occupancy assertion or out-of-range
indexing); the inner `Option` is the Rust `Option` return value. -/
def read_value {α : Type} (h : IndexEntryPlaceInBucket)
    (b : BucketStorage IndexEntry) (data_buckets : List (BucketStorage α)) :
    Option (Option (List α × Nat)) :=
  match h.num_slots b with
  | none => none
  | some ns =>
    if 0 < ns then
      match data_buckets[data_bucket_from_num_slots ns]? with
      | none => none
      | some data_bucket =>
        match h.data_loc b data_bucket with
        | none => none
        | some loc =>
          if data_bucket.is_free loc then none
          else
            match data_bucket.get_cell_slice loc ns with
            | none => none
            | some slice =>
              match h.ref_count b with
              | none => none
              | some rc => some (some (slice, rc))
    else
      match h.ref_count b with
      | none => none
      | some rc => some (some (([] : List α), rc))

end IndexEntryPlaceInBucket

/-! ## Packed-word arithmetic lemmas -/

theorem PackedStorage.set_offset_checked_of_lt (p : PackedStorage) (v : Nat)
    (hv : v < 2 ^ 56) :
    p.set_offset_checked v = some ⟨v * 2 ^ 8 + p.word % 2 ^ 8⟩ := by
  unfold PackedStorage.set_offset_checked
  rw [if_pos hv]

theorem PackedStorage.offset_after_set_offset (p : PackedStorage) (v : Nat)
    (hv : v < 2 ^ 56) :
    (⟨v * 2 ^ 8 + p.word % 2 ^ 8⟩ : PackedStorage).offset = v := by
  simp only [PackedStorage.offset]
  norm_num at hv ⊢
  omega

theorem PackedStorage.cap_after_set_offset (p : PackedStorage) (v : Nat) :
    (⟨v * 2 ^ 8 + p.word % 2 ^ 8⟩ : PackedStorage).capacity_when_created_pow2
      = p.capacity_when_created_pow2 := by
  simp only [PackedStorage.capacity_when_created_pow2]
  norm_num
  omega

theorem PackedStorage.cap_after_set_cap (p : PackedStorage) (v : Nat)
    (hv : v < 2 ^ 8) :
    (p.set_capacity_when_created_pow2 v).capacity_when_created_pow2 = v := by
  simp only [PackedStorage.capacity_when_created_pow2,
    PackedStorage.set_capacity_when_created_pow2]
  norm_num
  omega

theorem PackedStorage.offset_after_set_cap (p : PackedStorage) (v : Nat) :
    (p.set_capacity_when_created_pow2 v).offset = p.offset := by
  simp only [PackedStorage.offset, PackedStorage.set_capacity_when_created_pow2]
  norm_num
  omega

/-! ## Bucket access lemmas -/

theorem BucketStorage.lt_length_of_get {α : Type} (s : BucketStorage α)
    (ix : Nat) (e : α) (hget : s.get ix = some e) : ix < s.elements.length := by
  simp only [BucketStorage.get] at hget
  exact (List.getElem?_eq_some.1 hget).1

theorem BucketStorage.get_setElem_self {α : Type} (s : BucketStorage α)
    (ix : Nat) (e : α) (hix : ix < s.elements.length) :
    (s.setElem ix e).get ix = some e := by
  simp only [BucketStorage.get, BucketStorage.setElem]
  exact List.getElem?_set_eq_of_lt e hix

/-! ## Concrete fixtures used to instantiate the theorems -/

/-- A concrete index entry: created pow2 = 2, offset = 6, two slots. -/
def sampleEntry : IndexEntry :=
  { key := 0, ref_count := 7, storage_cap_and_offset := ⟨6 * 2 ^ 8 + 2⟩,
    num_slots := 2 }

/-- A one-element index bucket holding `sampleEntry` at slot 0. -/
def sampleIndexBucket : BucketStorage IndexEntry :=
  { capacity_pow2 := 3, elements := [sampleEntry], occupancy := ⟨[true]⟩ }

/-- A fully occupied 64-element data bucket with capacity exponent `cap`. -/
def sampleDataBucket (cap : Nat) : BucketStorage Nat :=
  { capacity_pow2 := cap, elements := List.replicate 64 5,
    occupancy := ⟨List.replicate 64 true⟩ }

/-! ## C2: growth-safe addressing -/

/-- C2: for an entry stored with creation-time capacity exponent `c0` and
offset `o`, and a Data Bucket whose current exponent is `c1 ≥ c0`, `data_loc`
returns `o` left-shifted by `c1 - c0` (as a u64); so the recorded offset stays
valid across any number of doublings, in particular `c1 = c0 + 1` and
`c1 = c0 + 3`, without rewriting the entry. -/
theorem data_loc_growth_safe {α : Type} (h : IndexEntryPlaceInBucket)
    (b : BucketStorage IndexEntry) (storage : BucketStorage α)
    (e : IndexEntry) (c0 c1 o : Nat)
    (hget : b.get h.ix = some e)
    (hc0 : e.storage_cap_and_offset.capacity_when_created_pow2 = c0)
    (ho : e.storage_cap_and_offset.offset = o)
    (hc1 : storage.capacity_pow2 = c1)
    (hle : c0 ≤ c1) :
    h.data_loc b storage = some ((o <<< (c1 - c0)) % 2 ^ 64) := by
  simp only [IndexEntryPlaceInBucket.data_loc, hget, Option.map_some', hc0, ho,
    hc1]

theorem data_loc_growth_safe_witness :
    (⟨0⟩ : IndexEntryPlaceInBucket).data_loc sampleIndexBucket
        (sampleDataBucket 3) = some 12 ∧
    (⟨0⟩ : IndexEntryPlaceInBucket).data_loc sampleIndexBucket
        (sampleDataBucket 5) = some 48 :=
  ⟨(data_loc_growth_safe ⟨0⟩ sampleIndexBucket (sampleDataBucket 3) sampleEntry
      2 3 6 rfl (by decide) (by decide) rfl (by decide)).trans (by decide),
   (data_loc_growth_safe ⟨0⟩ sampleIndexBucket (sampleDataBucket 5) sampleEntry
      2 5 6 rfl (by decide) (by decide) rfl (by decide)).trans (by decide)⟩

/-! ## C4: the 56-bit offset bound is enforced -/

/-- C4: with the handle bound to an existing slot, `set_storage_offset` panics
exactly when the offset does not fit in 56 bits (`offset ≥ 2 ^ 56`), and any
in-range offset — in particular `2 ^ 56 - 1` — is stored exactly, never
truncated. -/
theorem set_storage_offset_panics_iff (h : IndexEntryPlaceInBucket)
    (b : BucketStorage IndexEntry) (e : IndexEntry)
    (hget : b.get h.ix = some e) (v : Nat) :
    (h.set_storage_offset b v = none ↔ 2 ^ 56 ≤ v) ∧
    (v < 2 ^ 56 → ∃ b2, h.set_storage_offset b v = some b2 ∧
      h.storage_offset b2 = some v) := by
  have hix := BucketStorage.lt_length_of_get b h.ix e hget
  by_cases hv : v < 2 ^ 56
  · have hchk := PackedStorage.set_offset_checked_of_lt
      e.storage_cap_and_offset v hv
    have heq : h.set_storage_offset b v = some (b.setElem h.ix
        { e with storage_cap_and_offset :=
            ⟨v * 2 ^ 8 + e.storage_cap_and_offset.word % 2 ^ 8⟩ }) := by
      simp only [IndexEntryPlaceInBucket.set_storage_offset, hget, hchk]
    refine ⟨⟨fun hx => ?_, fun hx => absurd hx (by omega)⟩, fun _ => ⟨_, heq, ?_⟩⟩
    · rw [heq] at hx
      exact absurd hx (Option.some_ne_none _)
    · simp only [IndexEntryPlaceInBucket.storage_offset,
        BucketStorage.get_setElem_self _ _ _ hix, Option.map_some']
      rw [PackedStorage.offset_after_set_offset e.storage_cap_and_offset v hv]
  · have hchk : e.storage_cap_and_offset.set_offset_checked v = none := by
      unfold PackedStorage.set_offset_checked
      rw [if_neg hv]
    refine ⟨⟨fun _ => by omega, fun _ => ?_⟩, fun hvlt => absurd hvlt hv⟩
    simp only [IndexEntryPlaceInBucket.set_storage_offset, hget, hchk]

/-! ## C3: the packed fields are independent -/

/-- C3: for any 56-bit `o` and 8-bit `p` written through the two setters in
either order, each getter returns exactly the last value set for its own
field, and writing one field never changes the value read from the other. -/
theorem packed_fields_independent (h : IndexEntryPlaceInBucket)
    (b : BucketStorage IndexEntry) (e : IndexEntry)
    (hget : b.get h.ix = some e)
    (o p : Nat) (ho : o < 2 ^ 56) (hp : p < 2 ^ 8) :
    (∃ b1 b2, h.set_storage_offset b o = some b1 ∧
      h.storage_capacity_when_created_pow2 b1
        = h.storage_capacity_when_created_pow2 b ∧
      h.set_storage_capacity_when_created_pow2 b1 p = some b2 ∧
      h.storage_offset b2 = some o ∧
      h.storage_capacity_when_created_pow2 b2 = some p) ∧
    (∃ b1 b2, h.set_storage_capacity_when_created_pow2 b p = some b1 ∧
      h.storage_offset b1 = h.storage_offset b ∧
      h.set_storage_offset b1 o = some b2 ∧
      h.storage_offset b2 = some o ∧
      h.storage_capacity_when_created_pow2 b2 = some p) := by
  have hix := BucketStorage.lt_length_of_get b h.ix e hget
  have hchk := PackedStorage.set_offset_checked_of_lt
    e.storage_cap_and_offset o ho
  constructor
  · -- order 1: offset first, then capacity
    set q1 : PackedStorage := ⟨o * 2 ^ 8 + e.storage_cap_and_offset.word % 2 ^ 8⟩
      with hq1
    set e1 : IndexEntry := { e with storage_cap_and_offset := q1 } with he1
    have hb1 : h.set_storage_offset b o = some (b.setElem h.ix e1) := by
      simp only [IndexEntryPlaceInBucket.set_storage_offset, hget, hchk, he1]
    have hget1 : (b.setElem h.ix e1).get h.ix = some e1 :=
      BucketStorage.get_setElem_self _ _ _ hix
    have hix1 : h.ix < (b.setElem h.ix e1).elements.length := by
      simpa [BucketStorage.setElem] using hix
    set e2 : IndexEntry :=
      { e1 with storage_cap_and_offset := q1.set_capacity_when_created_pow2 p }
      with he2
    have hb2 : h.set_storage_capacity_when_created_pow2 (b.setElem h.ix e1) p
        = some ((b.setElem h.ix e1).setElem h.ix e2) := by
      simp only [IndexEntryPlaceInBucket.set_storage_capacity_when_created_pow2,
        hget1, he2]
    have hget2 : ((b.setElem h.ix e1).setElem h.ix e2).get h.ix = some e2 :=
      BucketStorage.get_setElem_self _ _ _ hix1
    refine ⟨_, _, hb1, ?_, hb2, ?_, ?_⟩
    · simp only [IndexEntryPlaceInBucket.storage_capacity_when_created_pow2,
        hget1, hget, Option.map_some']
      rw [hq1, PackedStorage.cap_after_set_offset e.storage_cap_and_offset o]
    · simp only [IndexEntryPlaceInBucket.storage_offset, hget2, Option.map_some']
      rw [PackedStorage.offset_after_set_cap q1 p, hq1,
        PackedStorage.offset_after_set_offset e.storage_cap_and_offset o ho]
    · simp only [IndexEntryPlaceInBucket.storage_capacity_when_created_pow2,
        hget2, Option.map_some']
      rw [PackedStorage.cap_after_set_cap q1 p hp]
  · -- order 2: capacity first, then offset
    set e1 : IndexEntry :=
      { e with storage_cap_and_offset :=
          e.storage_cap_and_offset.set_capacity_when_created_pow2 p } with he1
    have hb1 : h.set_storage_capacity_when_created_pow2 b p
        = some (b.setElem h.ix e1) := by
      simp only [IndexEntryPlaceInBucket.set_storage_capacity_when_created_pow2,
        hget, he1]
    have hget1 : (b.setElem h.ix e1).get h.ix = some e1 :=
      BucketStorage.get_setElem_self _ _ _ hix
    have hix1 : h.ix < (b.setElem h.ix e1).elements.length := by
      simpa [BucketStorage.setElem] using hix
    have hchk1 := PackedStorage.set_offset_checked_of_lt
      e1.storage_cap_and_offset o ho
    set q2 : PackedStorage :=
      ⟨o * 2 ^ 8 + e1.storage_cap_and_offset.word % 2 ^ 8⟩ with hq2
    set e2 : IndexEntry := { e1 with storage_cap_and_offset := q2 } with he2
    have hb2 : h.set_storage_offset (b.setElem h.ix e1) o
        = some ((b.setElem h.ix e1).setElem h.ix e2) := by
      simp only [IndexEntryPlaceInBucket.set_storage_offset, hget1, hchk1, he2]
    have hget2 : ((b.setElem h.ix e1).setElem h.ix e2).get h.ix = some e2 :=
      BucketStorage.get_setElem_self _ _ _ hix1
    refine ⟨_, _, hb1, ?_, hb2, ?_, ?_⟩
    · simp only [IndexEntryPlaceInBucket.storage_offset, hget1, hget,
        Option.map_some']
      rw [PackedStorage.offset_after_set_cap]
    · simp only [IndexEntryPlaceInBucket.storage_offset, hget2, Option.map_some']
      rw [hq2, PackedStorage.offset_after_set_offset e1.storage_cap_and_offset o ho]
    · simp only [IndexEntryPlaceInBucket.storage_capacity_when_created_pow2,
        hget2, Option.map_some']
      rw [hq2, PackedStorage.cap_after_set_offset e1.storage_cap_and_offset o]
      show some ((e.storage_cap_and_offset.set_capacity_when_created_pow2
        p).capacity_when_created_pow2) = some p
      rw [PackedStorage.cap_after_set_cap e.storage_cap_and_offset p hp]

theorem packed_fields_independent_witness :
    ∃ b1 b2, (⟨0⟩ : IndexEntryPlaceInBucket).set_storage_offset
        sampleIndexBucket (2 ^ 32 - 1) = some b1 ∧
      (⟨0⟩ : IndexEntryPlaceInBucket).storage_capacity_when_created_pow2 b1
        = (⟨0⟩ : IndexEntryPlaceInBucket).storage_capacity_when_created_pow2
            sampleIndexBucket ∧
      (⟨0⟩ : IndexEntryPlaceInBucket).set_storage_capacity_when_created_pow2
          b1 255 = some b2 ∧
      (⟨0⟩ : IndexEntryPlaceInBucket).storage_offset b2 = some (2 ^ 32 - 1) ∧
      (⟨0⟩ : IndexEntryPlaceInBucket).storage_capacity_when_created_pow2 b2
        = some 255 :=
  (packed_fields_independent ⟨0⟩ sampleIndexBucket sampleEntry rfl
    (2 ^ 32 - 1) 255 (by norm_num) (by norm_num)).1

theorem set_storage_offset_panics_iff_witness :
    (⟨0⟩ : IndexEntryPlaceInBucket).set_storage_offset sampleIndexBucket
        (2 ^ 56) = none ∧
    ∃ b2, (⟨0⟩ : IndexEntryPlaceInBucket).set_storage_offset sampleIndexBucket
        (2 ^ 56 - 1) = some b2 ∧
      (⟨0⟩ : IndexEntryPlaceInBucket).storage_offset b2 = some (2 ^ 56 - 1) :=
  ⟨(set_storage_offset_panics_iff ⟨0⟩ sampleIndexBucket sampleEntry rfl
      (2 ^ 56)).1.2 (by norm_num),
   (set_storage_offset_panics_iff ⟨0⟩ sampleIndexBucket sampleEntry rfl
      (2 ^ 56 - 1)).2 (by norm_num)⟩

/-! ## C6: the occupancy protocol is enforced fatally -/

theorem getD_set_self {α : Type} (l : List α) (ix : Nat) (v d : α)
    (hix : ix < l.length) : (l.set ix v).getD ix d = v := by
  induction l generalizing ix with
  | nil => simp at hix
  | cons a t ih =>
    cases ix with
    | zero => rfl
    | succ j => exact ih j (Nat.lt_of_succ_lt_succ hix)

/-- C6: `occupy` on an occupied slot and `free` on a free slot are assertion
failures (`none`), never silently accepted; a successful `occupy` makes
`is_free` false and a successful `free` makes it true.  `is_free` is a plain
function of the tracker state in this embedding (it takes `&self` in the
source), so it cannot modify the tracker. -/
theorem occupancy_protocol (b : BucketWithBitVec) (ix : Nat)
    (hix : ix < b.occupied.length) :
    (b.is_free ix = false → b.occupy ix = none) ∧
    (b.is_free ix = true → b.free ix = none) ∧
    (∀ b2, b.occupy ix = some b2 → b2.is_free ix = false) ∧
    (∀ b2, b.free ix = some b2 → b2.is_free ix = true) := by
  refine ⟨fun hf => ?_, fun hf => ?_, fun b2 hb2 => ?_, fun b2 hb2 => ?_⟩
  · simp [BucketWithBitVec.occupy, hf]
  · simp [BucketWithBitVec.free, hf]
  · by_cases hf : b.is_free ix
    · rw [BucketWithBitVec.occupy, if_pos hf] at hb2
      injection hb2 with hb2'
      rw [← hb2']
      simp only [BucketWithBitVec.is_free]
      rw [getD_set_self _ _ _ _ hix]
      rfl
    · rw [BucketWithBitVec.occupy, if_neg hf] at hb2
      exact absurd hb2 (Option.noConfusion)
  · by_cases hf : b.is_free ix
    · have hcond : ¬((!(b.is_free ix)) = true) := by simp [hf]
      rw [BucketWithBitVec.free, if_neg hcond] at hb2
      exact absurd hb2 (Option.noConfusion)
    · rw [Bool.not_eq_true] at hf
      have hcond : (!(b.is_free ix)) = true := by simp [hf]
      rw [BucketWithBitVec.free, if_pos hcond] at hb2
      injection hb2 with hb2'
      rw [← hb2']
      simp only [BucketWithBitVec.is_free]
      rw [getD_set_self _ _ _ _ hix]
      rfl

theorem occupancy_protocol_witness :
    (BucketWithBitVec.mk [true]).occupy 0 = none ∧
    (BucketWithBitVec.mk [false]).free 0 = none :=
  ⟨(occupancy_protocol (BucketWithBitVec.mk [true]) 0 (by decide)).1 (by decide),
   (occupancy_protocol (BucketWithBitVec.mk [false]) 0 (by decide)).2.1
     (by decide)⟩

/-! ## C5: the read_value case split -/

/-- C5: with `num_slots = 0` (as after a fresh `init`) `read_value` returns
the empty slice and the current ref count for ANY list of data buckets,
including the empty one (no Data Bucket need exist); with `num_slots > 0` it
selects the Data Bucket at index `data_bucket_from_num_slots num_slots`,
computes `data_loc`, panics if that slot is marked free, and otherwise
returns the cell slice of length `num_slots` plus the ref count. -/
theorem read_value_case_split {α : Type} (h : IndexEntryPlaceInBucket)
    (b : BucketStorage IndexEntry) (e : IndexEntry)
    (hget : b.get h.ix = some e) :
    (e.num_slots = 0 →
      ∀ data_buckets : List (BucketStorage α),
        h.read_value b data_buckets = some (some ([], e.ref_count))) ∧
    (∀ key, ∃ b2, h.init b key = some b2 ∧ h.num_slots b2 = some 0 ∧
      ∀ data_buckets : List (BucketStorage α),
        h.read_value b2 data_buckets = some (some ([], 0))) ∧
    (0 < e.num_slots →
      ∀ (data_buckets : List (BucketStorage α)) (db : BucketStorage α)
        (loc : Nat),
        data_buckets[data_bucket_from_num_slots e.num_slots]? = some db →
        h.data_loc b db = some loc →
        (db.is_free loc = true → h.read_value b data_buckets = none) ∧
        (db.is_free loc = false →
          ∀ slice, db.get_cell_slice loc e.num_slots = some slice →
            h.read_value b data_buckets = some (some (slice, e.ref_count)) ∧
            slice.length = e.num_slots)) := by
  have hix := BucketStorage.lt_length_of_get b h.ix e hget
  have hns : h.num_slots b = some e.num_slots := by
    simp [IndexEntryPlaceInBucket.num_slots, hget]
  have hrc : h.ref_count b = some e.ref_count := by
    simp [IndexEntryPlaceInBucket.ref_count, hget]
  refine ⟨fun h0 data_buckets => ?_, fun key => ?_, fun hpos data_buckets db loc hdb hloc => ?_⟩
  · rw [IndexEntryPlaceInBucket.read_value, hns]
    simp [h0, hrc]
  · set e0 : IndexEntry :=
      { key := key, ref_count := 0,
        storage_cap_and_offset := PackedStorage.default, num_slots := 0 }
      with he0
    have hinit : h.init b key = some (b.setElem h.ix e0) := by
      simp only [IndexEntryPlaceInBucket.init, hget, he0]
    have hget0 : (b.setElem h.ix e0).get h.ix = some e0 :=
      BucketStorage.get_setElem_self _ _ _ hix
    have hns0 : h.num_slots (b.setElem h.ix e0) = some 0 := by
      simp [IndexEntryPlaceInBucket.num_slots, hget0]
    have hrc0 : h.ref_count (b.setElem h.ix e0) = some 0 := by
      simp [IndexEntryPlaceInBucket.ref_count, hget0]
    refine ⟨_, hinit, hns0, fun data_buckets => ?_⟩
    rw [IndexEntryPlaceInBucket.read_value, hns0]
    simp [hrc0]
  · refine ⟨fun hfree => ?_, fun hocc slice hslice => ⟨?_, ?_⟩⟩
    · rw [IndexEntryPlaceInBucket.read_value, hns]
      simp [hpos, hdb, hloc, hfree]
    · rw [IndexEntryPlaceInBucket.read_value, hns]
      simp [hpos, hdb, hloc, hocc, hslice, hrc]
    · rw [BucketStorage.get_cell_slice] at hslice
      split at hslice
      · injection hslice with hslice'
        rw [← hslice']
        rw [List.length_take, List.length_drop]
        omega
      · exact absurd hslice (Option.noConfusion)

theorem read_value_case_split_witness :
    (⟨0⟩ : IndexEntryPlaceInBucket).read_value sampleIndexBucket
        [sampleDataBucket 2, sampleDataBucket 3] = some (some ([5, 5], 7)) ∧
    ([5, 5] : List Nat).length = sampleEntry.num_slots :=
  ((read_value_case_split ⟨0⟩ sampleIndexBucket sampleEntry rfl).2.2
    (by decide) [sampleDataBucket 2, sampleDataBucket 3] (sampleDataBucket 3)
    12 (by decide) (by decide)).2 (by decide) [5, 5] (by decide)

/-! ## C10: read_value never returns the inner None -/

/-- C10: despite the `Option` return type, no input makes `read_value` return
`None`: every execution that does not panic returns `Some`, so a caller
cannot use `None` to detect a missing allocation. -/
theorem read_value_never_none {α : Type} (h : IndexEntryPlaceInBucket)
    (b : BucketStorage IndexEntry) (data_buckets : List (BucketStorage α)) :
    h.read_value b data_buckets ≠ some none := by
  cases hns : h.num_slots b with
  | none => simp [IndexEntryPlaceInBucket.read_value, hns]
  | some ns =>
    by_cases hpos : 0 < ns
    · cases hdb : data_buckets[data_bucket_from_num_slots ns]? with
      | none => simp [IndexEntryPlaceInBucket.read_value, hns, hpos, hdb]
      | some db =>
        cases hloc : h.data_loc b db with
        | none =>
          simp [IndexEntryPlaceInBucket.read_value, hns, hpos, hdb, hloc]
        | some loc =>
          by_cases hfree : db.is_free loc
          · simp [IndexEntryPlaceInBucket.read_value, hns, hpos, hdb, hloc,
              hfree]
          · cases hsl : db.get_cell_slice loc ns with
            | none =>
              simp [IndexEntryPlaceInBucket.read_value, hns, hpos, hdb, hloc,
                hfree, hsl]
            | some slice =>
              cases hrc : h.ref_count b with
              | none =>
                simp [IndexEntryPlaceInBucket.read_value, hns, hpos, hdb,
                  hloc, hfree, hsl, hrc]
              | some rc =>
                simp [IndexEntryPlaceInBucket.read_value, hns, hpos, hdb,
                  hloc, hfree, hsl, hrc]
    · cases hrc : h.ref_count b with
      | none => simp [IndexEntryPlaceInBucket.read_value, hns, hpos, hrc]
      | some rc => simp [IndexEntryPlaceInBucket.read_value, hns, hpos, hrc]

/-! ## Accounts index storage lifecycle (`runtime/src/accounts_index_storage.rs`)

The background loop and the `Drop` implementation are embedded as effect
traces: each externally observable action of the thread (the bounded
condition-variable wait, the stats report, the exit-flag store, the wake-up,
the joins) becomes one constructor, and the control flow of the source is
reproduced over those actions. -/

/-- One observable action of the background maintenance loop. -/
inductive BgEffect : Type
  | waitTimeout (ms : Nat)
  | reportStats
deriving DecidableEq, Repr

/-- Embedding of `AccountsIndexStorage::background` (lines 93-105): the loop
body first performs `wait.wait_timeout(Duration::from_millis(10000))`, then
loads the exit flag and breaks if it is set, otherwise calls
`storage.stats.report_stats()` and loops.  `obs` is the sequence of exit-flag
values observed at each wake-up; the trace ends either at the first `true`
observation (thread exit) or when the observation sequence runs out (thread
still running). -/
def backgroundTrace : List Bool → List BgEffect
  | [] => []
  | e :: rest =>
    BgEffect.waitTimeout 10000 ::
      (if e then [] else BgEffect.reportStats :: backgroundTrace rest)

/-- One observable lifecycle action of `AccountsIndexStorage`. -/
inductive LifecycleEffect : Type
  | storeExit
  | notifyAll
  | spawnThread (thread_name : String)
  | joinThread (id : Nat)
deriving DecidableEq, Repr

/-- Modelled from the spec: `AccountsIndexConfig` is defined outside the
provided sources; spec section 5 describes the background pool size as
configurable through it, so the model gives it an optional requested pool
size.  The embedded `new` below ignores it, exactly as the source ignores its
`_config` argument. -/
structure AccountsIndexConfig where
  requested_threads : Option Nat
deriving DecidableEq, Repr

/-- The state owned by one `AccountsIndexStorage` instance.  `bins` stands in
for the shared `BucketMapHolder` (constructed with `bins` shards) and
`in_mem_count` for the per-bin `InMemAccountsIndex` vector; both collaborators
live outside the provided sources and only their multiplicity matters to the
claims. -/
structure AccountsIndexStorageState where
  exit : Bool
  handles : Option (List Nat)
  bins : Nat
  in_mem_count : Nat
deriving DecidableEq, Repr

/-- `DEFAULT_THREADS` (line 57): the constant pool size; the source comment
says "soon, this will be a cpu calculation". -/
def DEFAULT_THREADS : Nat := 1

/-- Embedding of `AccountsIndexStorage::new(bins, _config)` (lines 48-86):
builds the holder over `bins` shards, one in-memory index per bin, and spawns
`DEFAULT_THREADS` named background threads; the `_config` argument is unused
in the source.  Returns the new state and the spawn effects in order. -/
def AccountsIndexStorage.new (bins : Nat)
    (_config : Option AccountsIndexConfig) :
    AccountsIndexStorageState × List LifecycleEffect :=
  let threads := DEFAULT_THREADS
  ({ exit := false, handles := some (List.range threads), bins := bins,
     in_mem_count := bins },
   (List.range threads).map
     (fun _ => LifecycleEffect.spawnThread "solana-idx-flusher"))

/-- Embedding of `impl Drop for AccountsIndexStorage` (lines 36-46): store
`true` into the exit flag, `notify_all` the condition variable, then
`take()` the handle vector and join each handle in order.  Returns the new
state and the effects in program order. -/
def AccountsIndexStorage.drop (s : AccountsIndexStorageState) :
    AccountsIndexStorageState × List LifecycleEffect :=
  ({ s with exit := true, handles := none },
   LifecycleEffect.storeExit :: LifecycleEffect.notifyAll ::
     (match s.handles with
      | some hs => hs.map LifecycleEffect.joinThread
      | none => []))

/-! ## C7: the background loop -/

theorem backgroundTrace_count (obs : List Bool) :
    (backgroundTrace obs).count BgEffect.reportStats
      = (obs.takeWhile (fun b => !b)).length := by
  induction obs with
  | nil => rfl
  | cons e rest ih =>
    cases e
    · simp [backgroundTrace, List.takeWhile, List.count_cons, ih]
    · simp [backgroundTrace, List.takeWhile, List.count_cons]

theorem backgroundTrace_effects (obs : List Bool) :
    ∀ eff ∈ backgroundTrace obs,
      eff = BgEffect.waitTimeout 10000 ∨ eff = BgEffect.reportStats := by
  induction obs with
  | nil => simp [backgroundTrace]
  | cons e rest ih =>
    cases e
    · intro eff hmem
      simp only [backgroundTrace, Bool.false_eq_true, if_false,
        List.mem_cons] at hmem
      rcases hmem with h1 | h2 | h3
      · exact Or.inl h1
      · exact Or.inr h2
      · exact ih eff h3
    · intro eff hmem
      simp only [backgroundTrace, if_true, List.mem_cons, List.not_mem_nil,
        or_false] at hmem
      exact Or.inl hmem

theorem backgroundTrace_stops (pre rest : List Bool)
    (hpre : ∀ b ∈ pre, b = false) :
    backgroundTrace (pre ++ true :: rest) = backgroundTrace (pre ++ [true]) := by
  induction pre with
  | nil => simp [backgroundTrace]
  | cons b t ih =>
    have hb : b = false := hpre b (List.mem_cons_self b t)
    subst hb
    simp only [List.cons_append, backgroundTrace, Bool.false_eq_true, if_false]
    exact congrArg
      (fun l => BgEffect.waitTimeout 10000 :: BgEffect.reportStats :: l)
      (ih (fun x hx => hpre x (List.mem_cons_of_mem _ hx)))

/-- C7: every iteration of the background loop begins with the bounded
10-second (`10000` ms) wait; a wake-up that observes the exit flag terminates
the thread with no further effect — in particular no stats report ever
follows a `true` observation; a wake-up that observes the flag clear reports
stats exactly once and loops (one report per clear observation); and the
trace consists only of bounded waits and stats reports, so the loop never
blocks unboundedly. -/
theorem background_loop_spec (obs pre rest : List Bool) :
    backgroundTrace (true :: rest) = [BgEffect.waitTimeout 10000] ∧
    backgroundTrace (false :: rest)
      = BgEffect.waitTimeout 10000 :: BgEffect.reportStats ::
          backgroundTrace rest ∧
    (backgroundTrace obs).count BgEffect.reportStats
      = (obs.takeWhile (fun b => !b)).length ∧
    (∀ eff ∈ backgroundTrace obs,
      eff = BgEffect.waitTimeout 10000 ∨ eff = BgEffect.reportStats) ∧
    ((∀ b ∈ pre, b = false) →
      backgroundTrace (pre ++ true :: rest) = backgroundTrace (pre ++ [true])) :=
  ⟨by simp [backgroundTrace], by simp [backgroundTrace],
   backgroundTrace_count obs, backgroundTrace_effects obs,
   backgroundTrace_stops pre rest⟩

theorem background_loop_spec_witness :
    backgroundTrace ([false] ++ true :: [false])
      = backgroundTrace ([false] ++ [true]) :=
  (background_loop_spec [false, true] [false] [false]).2.2.2.2 (by decide)

/-! ## C8: shutdown via Drop -/

/-- C8: the drop body first stores `true` into the shared exit flag, then
wakes the condition variable, then joins every held thread handle exactly
once and in order; the resulting state holds no handles, so running the drop
body again joins nothing (idempotent-safe); and a background thread that
observes the exit flag at its next wake-up terminates at once
(`backgroundTrace (true :: rest)` is just the one bounded wait). -/
theorem drop_spec (s : AccountsIndexStorageState) (hs : List Nat)
    (rest : List Bool) (hh : s.handles = some hs) :
    (AccountsIndexStorage.drop s).1.exit = true ∧
    (AccountsIndexStorage.drop s).1.handles = none ∧
    (AccountsIndexStorage.drop s).2
      = LifecycleEffect.storeExit :: LifecycleEffect.notifyAll ::
          hs.map LifecycleEffect.joinThread ∧
    (AccountsIndexStorage.drop (AccountsIndexStorage.drop s).1).2
      = [LifecycleEffect.storeExit, LifecycleEffect.notifyAll] ∧
    backgroundTrace (true :: rest) = [BgEffect.waitTimeout 10000] := by
  refine ⟨rfl, rfl, ?_, ?_, by simp [backgroundTrace]⟩
  · simp [AccountsIndexStorage.drop, hh]
  · simp [AccountsIndexStorage.drop]

theorem drop_spec_witness :
    (AccountsIndexStorage.drop (AccountsIndexStorage.new 4 none).1).2
      = [LifecycleEffect.storeExit, LifecycleEffect.notifyAll,
         LifecycleEffect.joinThread 0] :=
  (drop_spec (AccountsIndexStorage.new 4 none).1 [0] [] (by decide)).2.2.1

/-! ## C9: the background pool size is NOT configurable -/

/-- C9 counterexample: the claim says `new` spawns the number of background
threads configured through the `config` argument; a config requesting 4
threads still gets exactly 1 spawned thread, because the source ignores
`_config` and uses the constant `DEFAULT_THREADS = 1`. -/
theorem new_thread_count_not_configurable :
    (AccountsIndexStorage.new 8
        (some { requested_threads := some 4 })).2.length = 1 ∧
    ¬ (AccountsIndexStorage.new 8
        (some { requested_threads := some 4 })).2.length = 4 := by
  constructor <;> decide

/-- C9 (amended): the pool size is the fixed constant `DEFAULT_THREADS = 1`
and the config argument is ignored: for every `bins` and `config`, `new`
spawns exactly one named background thread ("solana-idx-flusher"), holds one
join handle, and builds one in-memory index per bin. -/
theorem new_spawns_default_threads (bins : Nat)
    (config : Option AccountsIndexConfig) :
    (AccountsIndexStorage.new bins config).2
      = [LifecycleEffect.spawnThread "solana-idx-flusher"] ∧
    (AccountsIndexStorage.new bins config).2.length = DEFAULT_THREADS ∧
    (AccountsIndexStorage.new bins config).1.handles
      = some (List.range DEFAULT_THREADS) ∧
    (AccountsIndexStorage.new bins config).1.in_mem_count = bins ∧
    (AccountsIndexStorage.new bins config).1.exit = false :=
  ⟨rfl, rfl, rfl, rfl, rfl⟩

end SolanaIndex
